import Mathlib

/-
Verification of the `config` package of the hound repository
(src/config/config.go): the JSON configuration loader, the per-repository
normalizer (`initRepo`), the config-level defaulting (`initConfig`,
title/dbpath handling in `LoadFromFile`), the `SecretMessage` envelope
(`MarshalJSON`, `UnmarshalJSON`, `VcsConfig`) and the secrets-redacted
projection `ToJSONString`.

Go byte slices (`[]byte`) are modelled as `List Char`; a nil-able Go
pointer (`*T`) is modelled as `Option T`; a Go `int` as `Int`; the
`map[string]*Repo` as an association list whose keys appear in the order
`encoding/json` emits them (the Go marshaler writes map keys in sorted
order; no claim below depends on the order itself).
-/

namespace Hound

/-- Byte sequences (Go `[]byte`) modelled as lists of characters. -/
abbrev Bytes := List Char

/-- The bytes of a string literal (Go `[]byte(s)`). -/
def strBytes (s : String) : Bytes := s.data

/-- Substring test, Go `strings.Contains(s, sub)`. -/
def goContains (s sub : String) : Bool := decide (sub.data <:+: s.data)

/-- Constants of config.go lines 11-23. -/
def defaultMsBetweenPoll : Int := 30000

def defaultMaxConcurrentIndexers : Int := 2

def defaultPushEnabled : Bool := false

def defaultPollEnabled : Bool := true

def defaultTitle : String := "Hound"

def defaultVcs : String := "git"

def defaultBaseURL : String := "{url}/blob/master/{path}{anchor}"

def defaultBaseURLAzureDevops : String := "{url}/?path=%2F{path}&version=GBmaster&line={anchor}"

def defaultAnchor : String := "#L{line}"

def defaultHealthCheckURI : String := "/healthz"

def defaultAnchorAzureDevops : String := "&line={line}"

/-- SecretMessage (config.go line 76): a raw byte payload. -/
abbrev SecretMessage := Bytes

/-- URLPattern (config.go lines 26-29). -/
structure URLPattern where
  baseURL : String
  anchor : String
deriving DecidableEq, Repr

/-- Repo (config.go lines 32-41).  Pointer-typed fields (`*SecretMessage`,
`*URLPattern`, `*bool`) become `Option`s; `none` is the Go nil pointer. -/
structure Repo where
  url : String
  msBetweenPolls : Int
  vcs : String
  vcsConfigMessage : Option SecretMessage
  urlPattern : Option URLPattern
  excludeDotFiles : Bool
  enablePollUpdates : Option Bool
  enablePushUpdates : Option Bool
deriving DecidableEq, Repr

/-- Config (config.go lines 65-71).  The `repos` map is an association
list with its keys in the order the Go JSON marshaler emits them. -/
structure Config where
  dbPath : String
  title : String
  repos : List (String × Repo)
  maxConcurrentIndexers : Int
  healthCheckURI : String
deriving DecidableEq, Repr

/-- optionToBool (config.go lines 45-50). -/
def optionToBool (val : Option Bool) (def_ : Bool) : Bool :=
  match val with
  | none => def_
  | some v => v

/-- Repo.PollUpdatesEnabled (config.go lines 54-56). -/
def Repo.pollUpdatesEnabled (r : Repo) : Bool :=
  optionToBool r.enablePollUpdates defaultPollEnabled

/-- Repo.PushUpdatesEnabled (config.go lines 60-62). -/
def Repo.pushUpdatesEnabled (r : Repo) : Bool :=
  optionToBool r.enablePushUpdates defaultPushEnabled

/-- Result of SecretMessage.MarshalJSON (config.go lines 80-82): the
returned bytes together with the returned error (always nil). -/
def SecretMessage.marshalJSON (_ : SecretMessage) : Bytes × Option String :=
  (strBytes "\x7b\x7d", none)

/-- Possible outcomes of a Go method call on a nil-able receiver: a
normal return, a returned error, or a runtime panic from dereferencing a
nil pointer. -/
inductive UnmarshalOutcome where
  | ok (s : SecretMessage)
  | err (msg : String)
  | nilPanic
deriving DecidableEq, Repr

/-- SecretMessage.UnmarshalJSON (config.go lines 86-92) on receiver `s`
(a `*SecretMessage`, nil-able) and argument `b` (a nil-able byte slice).
The code tests `b == nil` and returns an error; otherwise it executes
`*s = append((*s)[0:0], b...)`, which replaces the receiver's contents
with the bytes of `b` — and dereferences the receiver, so a nil receiver
panics at this point. -/
def SecretMessage.unmarshalJSON (s : Option SecretMessage) (b : Option Bytes) :
    UnmarshalOutcome :=
  match b with
  | none => .err "SecretMessage: UnmarshalJSON on nil pointer"
  | some bs =>
    match s with
    | none => .nilPanic
    | some _ => .ok bs

/-- Repo.VcsConfig (config.go lines 97-102): nil when the repo declares
no vcs-config, the stored bytes otherwise. -/
def Repo.vcsConfig (r : Repo) : Option Bytes :=
  match r.vcsConfigMessage with
  | none => none
  | some m => some m

/-- initRepo (config.go lines 105-136).  The Go code mutates the record
in place; the successive `let` bindings replay the same assignment
sequence. -/
def initRepo (r : Repo) : Repo :=
  let r1 := if r.msBetweenPolls = 0 then { r with msBetweenPolls := defaultMsBetweenPoll } else r
  let r2 := if r1.vcs = "" then { r1 with vcs := defaultVcs } else r1
  match r2.urlPattern with
  | none =>
    if goContains r2.url "visualstudio.com" then
      { r2 with urlPattern := some ⟨defaultBaseURLAzureDevops, defaultAnchorAzureDevops⟩ }
    else
      { r2 with urlPattern := some ⟨defaultBaseURL, defaultAnchor⟩ }
  | some p =>
    let p1 := if p.baseURL = "" then { p with baseURL := defaultBaseURL } else p
    let p2 := if p1.anchor = "" then { p1 with anchor := defaultAnchor } else p1
    { r2 with urlPattern := some p2 }

/-- initConfig (config.go lines 139-147). -/
def initConfig (c : Config) : Config :=
  let c1 := if c.maxConcurrentIndexers = 0
    then { c with maxConcurrentIndexers := defaultMaxConcurrentIndexers } else c
  if c1.healthCheckURI = ""
    then { c1 with healthCheckURI := defaultHealthCheckURI } else c1

/-- filepath.IsAbs on Unix: the path starts with a slash. -/
def isAbs (p : String) : Bool :=
  match p.data with
  | '/' :: _ => true
  | _ => false

/-- Split a character sequence at every slash (the segments of
`strings.Split(p, "/")`). -/
def splitSlash : List Char → List (List Char)
  | [] => [[]]
  | c :: rest =>
    if c = '/' then [] :: splitSlash rest
    else
      match splitSlash rest with
      | [] => [[c]]
      | seg :: segs => (c :: seg) :: segs

/-- One step of Go's path cleaning (path.Clean): push a component onto
the stack, eliminating "." and resolving ".." against the stack (dot-dot
at root is dropped when the path is rooted, kept when relative). -/
def cleanStep (rooted : Bool) (stack : List (List Char)) (comp : List Char) : List (List Char) :=
  if comp = ['.'] then stack
  else if comp = ['.', '.'] then
    match stack with
    | [] => if rooted then [] else [['.', '.']]
    | top :: rest => if top = ['.', '.'] then comp :: stack else rest
  else comp :: stack

/-- Re-join cleaned components with slashes. -/
def joinComps : List (List Char) → List Char
  | [] => []
  | [c] => c
  | c :: rest => c ++ '/' :: joinComps rest

/-- filepath.Clean for Unix paths: collapse repeated slashes, eliminate
"." and ".." elements, return "." for an empty result. -/
def clean (p : String) : String :=
  let rooted := isAbs p
  let comps := (splitSlash p.data).filter (fun c => c ≠ [])
  let body := joinComps ((comps.foldl (cleanStep rooted) []).reverse)
  if rooted then (if body = [] then "/" else String.mk ('/' :: body))
  else (if body = [] then "." else String.mk body)

/-- filepath.Dir for Unix paths: Clean of everything up to and including
the final slash ("." when the path has no slash). -/
def dirOf (p : String) : String :=
  clean (String.mk ((p.data.reverse.dropWhile (fun c => c ≠ '/')).reverse))

/-- filepath.Join of two elements on Unix: concatenate with a slash and
Clean; empty elements are dropped, the join of two empties is "". -/
def joinPath (a b : String) : String :=
  if a = "" then (if b = "" then "" else clean b)
  else if b = "" then clean a
  else clean (String.mk (a.data ++ '/' :: b.data))

/-- filepath.Abs relative to working directory `cwd`: an absolute path
is cleaned, a relative one joined onto `cwd`. -/
def absPath (cwd p : String) : String :=
  if isAbs p then clean p else joinPath cwd p

/-- Config.LoadFromFile (config.go lines 150-181) after the two I/O
steps: given the working directory of the process, the config file name
and the JSON-decoded Config, apply the title default, resolve a
non-absolute dbpath against the directory containing the config file,
normalize every repository and apply the config-level defaults.  (The
file-open and JSON-decode error paths return before this pipeline; with
a working directory available, `filepath.Abs` does not fail.) -/
def Config.loadFromFile (cwd filename : String) (c : Config) : Config :=
  let c1 := if c.title = "" then { c with title := defaultTitle } else c
  let c2 := if isAbs c1.dbPath then c1
    else { c1 with dbPath := absPath cwd (joinPath (dirOf filename) c1.dbPath) }
  let c3 := { c2 with repos := c2.repos.map (fun kr => (kr.fst, initRepo kr.snd)) }
  initConfig c3

/-- Lower-case hexadecimal digit, as used by encoding/json escapes. -/
def hexDigit (n : Nat) : Char :=
  if n < 10 then Char.ofNat (48 + n) else Char.ofNat (87 + n)

/-- encoding/json escaping of one character of a string value (default
encoder: quote, backslash, the named control escapes, \u00XX for other
control characters, and the HTML-safe escapes for <, > and &, plus
U+2028/U+2029). -/
def jsonEscapeChar (c : Char) : List Char :=
  if c = '"' then ['\\', '"']
  else if c = '\\' then ['\\', '\\']
  else if c = '\n' then ['\\', 'n']
  else if c = '\r' then ['\\', 'r']
  else if c = '\t' then ['\\', 't']
  else if c = '<' then (strBytes "\\u003c")
  else if c = '>' then (strBytes "\\u003e")
  else if c = '&' then (strBytes "\\u0026")
  else if c.toNat < 32 then
    ['\\', 'u', '0', '0', hexDigit (c.toNat / 16), hexDigit (c.toNat % 16)]
  else if c.toNat = 8232 then (strBytes "\\u2028")
  else if c.toNat = 8233 then (strBytes "\\u2029")
  else [c]

/-- encoding/json rendering of a string value, quotes included. -/
def jsonString (s : String) : Bytes :=
  '"' :: (s.data.map jsonEscapeChar).flatten ++ ['"']

/-- encoding/json rendering of a Go int. -/
def marshalInt (i : Int) : Bytes := (toString i).data

/-- encoding/json rendering of a bool. -/
def marshalBool (b : Bool) : Bytes := strBytes (if b then "true" else "false")

/-- encoding/json rendering of a `*bool` field: null for the nil pointer. -/
def marshalOptBool (b : Option Bool) : Bytes :=
  match b with
  | none => strBytes "null"
  | some v => marshalBool v

/-- encoding/json rendering of the `*URLPattern` field: null for nil,
otherwise the object with the tagged fields in declaration order. -/
def URLPattern.marshal (p : Option URLPattern) : Bytes :=
  match p with
  | none => strBytes "null"
  | some q =>
    strBytes "\x7b\"base-url\":" ++ jsonString q.baseURL ++
    strBytes ",\"anchor\":" ++ jsonString q.anchor ++ strBytes "\x7d"

/-- encoding/json rendering of the `*SecretMessage` field: null for the
nil pointer, otherwise the bytes returned by SecretMessage.MarshalJSON. -/
def marshalSecretField (m : Option SecretMessage) : Bytes :=
  match m with
  | none => strBytes "null"
  | some s => (SecretMessage.marshalJSON s).fst

/-- encoding/json rendering of one Repo value: every tagged field in
struct declaration order (none carries omitempty). -/
def Repo.marshal (r : Repo) : Bytes :=
  strBytes "\x7b\"url\":" ++ jsonString r.url ++
  strBytes ",\"ms-between-poll\":" ++ marshalInt r.msBetweenPolls ++
  strBytes ",\"vcs\":" ++ jsonString r.vcs ++
  strBytes ",\"vcs-config\":" ++ marshalSecretField r.vcsConfigMessage ++
  strBytes ",\"url-pattern\":" ++ URLPattern.marshal r.urlPattern ++
  strBytes ",\"exclude-dot-files\":" ++ marshalBool r.excludeDotFiles ++
  strBytes ",\"enable-poll-updates\":" ++ marshalOptBool r.enablePollUpdates ++
  strBytes ",\"enable-push-updates\":" ++ marshalOptBool r.enablePushUpdates ++
  strBytes "\x7d"

/-- encoding/json rendering of the repository map (keys already in the
order the Go marshaler emits, see the module comment). -/
def marshalRepos (repos : List (String × Repo)) : Bytes :=
  strBytes "\x7b" ++
  (List.intersperse (strBytes ",")
    (repos.map (fun kr => jsonString kr.fst ++ strBytes ":" ++ Repo.marshal kr.snd))).flatten ++
  strBytes "\x7d"

/-- Config.ToJSONString (config.go lines 184-191): marshal only the
repository map and return it as a string.  For this type the marshal
error branch is unreachable (SecretMessage.MarshalJSON never errors and
every other field is a plain string/int/bool/struct), so the function is
total here. -/
def Config.toJSONString (c : Config) : String :=
  String.mk (marshalRepos c.repos)

/-- A Repo with its secret payload bytes blanked (presence preserved):
two Repos differ only in secret payloads iff their scrubs are equal. -/
def scrubRepo (r : Repo) : Repo :=
  { r with vcsConfigMessage := r.vcsConfigMessage.map (fun _ => ([] : Bytes)) }

/-- A Config with every repository's secret payload bytes blanked. -/
def scrubConfig (c : Config) : Config :=
  { c with repos := c.repos.map (fun kr => (kr.fst, scrubRepo kr.snd)) }

/-- Closed form of initRepo: each defaultable field is filled
independently, and the URL-pattern ends up non-nil in every case. -/
theorem initRepo_eq (r : Repo) :
    initRepo r = { r with
      msBetweenPolls := if r.msBetweenPolls = 0 then defaultMsBetweenPoll else r.msBetweenPolls,
      vcs := if r.vcs = "" then defaultVcs else r.vcs,
      urlPattern := some (match r.urlPattern with
        | none =>
          if goContains r.url "visualstudio.com"
            then ⟨defaultBaseURLAzureDevops, defaultAnchorAzureDevops⟩
            else ⟨defaultBaseURL, defaultAnchor⟩
        | some p =>
          ⟨if p.baseURL = "" then defaultBaseURL else p.baseURL,
           if p.anchor = "" then defaultAnchor else p.anchor⟩) } := by
  rcases r with ⟨url, ms, vcs, msg, pat, ex, pl, ps⟩
  unfold initRepo
  rcases pat with _ | ⟨pb, pa⟩ <;>
    by_cases h1 : ms = 0 <;> by_cases h2 : vcs = "" <;>
      simp [h1, h2] <;> split <;> simp <;> split <;> simp

/-- C1: SecretMessage.MarshalJSON returns exactly the two bytes `{}` and a
nil error for every SecretMessage, whatever payload it holds; in
particular the SecretMessage populated by decoding the bytes of the
document with key x and value 1 (UnmarshalJSON stores those bytes
verbatim) encodes to the empty object and never back to its payload. -/
theorem secretMessage_marshalJSON_always_empty :
    ∀ s s₀ : SecretMessage,
      SecretMessage.marshalJSON s = (strBytes "\x7b\x7d", none) ∧
      SecretMessage.unmarshalJSON (some s₀) (some (strBytes "\x7b\"x\":1\x7d")) =
        UnmarshalOutcome.ok (strBytes "\x7b\"x\":1\x7d") ∧
      (SecretMessage.marshalJSON (strBytes "\x7b\"x\":1\x7d")).fst ≠
        strBytes "\x7b\"x\":1\x7d" := by
  intro s s₀
  exact ⟨rfl, rfl, by decide⟩

/-- C3: for a repository with no url-pattern supplied, initRepo picks the
template pair by a substring check on the URL: the Azure DevOps pair when
the URL contains "visualstudio.com", the generic defaults otherwise. -/
theorem initRepo_urlPattern_absent_defaults (r : Repo) (h : r.urlPattern = none) :
    (initRepo r).urlPattern =
      some (if goContains r.url "visualstudio.com"
        then ⟨defaultBaseURLAzureDevops, defaultAnchorAzureDevops⟩
        else ⟨defaultBaseURL, defaultAnchor⟩) := by
  rw [initRepo_eq, h]

/-- Repository with an Azure DevOps shaped URL and no url-pattern. -/
def azureRepo : Repo :=
  { url := "https://myorg.visualstudio.com/proj/_git/repo", msBetweenPolls := 0,
    vcs := "", vcsConfigMessage := none, urlPattern := none,
    excludeDotFiles := false, enablePollUpdates := none, enablePushUpdates := none }

/-- C3 witness: the concrete Azure-shaped repository receives the
Azure-specific template pair. -/
theorem initRepo_urlPattern_absent_defaults_witness :
    (initRepo azureRepo).urlPattern =
      some ⟨defaultBaseURLAzureDevops, defaultAnchorAzureDevops⟩ := by
  have h := initRepo_urlPattern_absent_defaults azureRepo rfl
  rw [h]
  decide

/-- C4: for a repository that supplies a url-pattern, initRepo fills each
empty sub-field with its generic default and keeps a non-empty sub-field
verbatim, whatever the repository URL is; the generic defaults are not
the Azure-specific templates. -/
theorem initRepo_urlPattern_partial_fill (r : Repo) (p : URLPattern)
    (h : r.urlPattern = some p) :
    (initRepo r).urlPattern =
      some ⟨if p.baseURL = "" then defaultBaseURL else p.baseURL,
            if p.anchor = "" then defaultAnchor else p.anchor⟩ ∧
    defaultBaseURL ≠ defaultBaseURLAzureDevops ∧
    defaultAnchor ≠ defaultAnchorAzureDevops := by
  rw [initRepo_eq, h]
  exact ⟨rfl, by decide, by decide⟩

/-- Repository with an Azure DevOps shaped URL whose url-pattern supplies
only the base-url. -/
def azureBaseOnlyRepo : Repo :=
  { url := "https://myorg.visualstudio.com/proj/_git/repo", msBetweenPolls := 5,
    vcs := "svn", vcsConfigMessage := none,
    urlPattern := some ⟨"https://example.com/x/{path}", ""⟩,
    excludeDotFiles := true, enablePollUpdates := some false,
    enablePushUpdates := some true }

/-- C4 witness: on the concrete repository supplying only a base-url, the
anchor is filled with the generic default and the base-url is preserved
verbatim even though the URL contains the Azure marker. -/
theorem initRepo_urlPattern_partial_fill_witness :
    (initRepo azureBaseOnlyRepo).urlPattern =
      some ⟨"https://example.com/x/{path}", defaultAnchor⟩ ∧
    defaultBaseURL ≠ defaultBaseURLAzureDevops ∧
    defaultAnchor ≠ defaultAnchorAzureDevops := by
  have h := initRepo_urlPattern_partial_fill azureBaseOnlyRepo
    ⟨"https://example.com/x/{path}", ""⟩ rfl
  exact ⟨by rw [h.1]; decide, h.2.1, h.2.2⟩

/-- C5: initRepo sets the poll interval to 30000 exactly when the decoded
value is zero and preserves a non-zero value; it sets the vcs kind to
"git" exactly when the decoded value is empty and preserves a non-empty
value. -/
theorem initRepo_poll_and_vcs_defaults (r : Repo) :
    (initRepo r).msBetweenPolls =
      (if r.msBetweenPolls = 0 then 30000 else r.msBetweenPolls) ∧
    (initRepo r).vcs = (if r.vcs = "" then "git" else r.vcs) := by
  rw [initRepo_eq]
  exact ⟨rfl, rfl⟩

/-- C6: PollUpdatesEnabled is true on an absent flag and the supplied
boolean otherwise; PushUpdatesEnabled is false on an absent flag and the
supplied boolean otherwise; initRepo leaves both tri-state flags exactly
as decoded. -/
theorem repo_update_flag_accessors (r : Repo) :
    r.pollUpdatesEnabled = r.enablePollUpdates.getD true ∧
    r.pushUpdatesEnabled = r.enablePushUpdates.getD false ∧
    (initRepo r).enablePollUpdates = r.enablePollUpdates ∧
    (initRepo r).enablePushUpdates = r.enablePushUpdates := by
  refine ⟨?_, ?_, by rw [initRepo_eq], by rw [initRepo_eq]⟩ <;>
    rcases h : r.enablePollUpdates with _ | b <;>
    rcases h2 : r.enablePushUpdates with _ | b2 <;>
      simp [Repo.pollUpdatesEnabled, Repo.pushUpdatesEnabled, optionToBool, h, h2,
        defaultPollEnabled, defaultPushEnabled]

/-- C8: UnmarshalJSON stores the given bytes verbatim and VcsConfig
returns exactly the stored bytes (and nil when no payload was set); but
invoked on a nil receiver with non-nil input the method dereferences the
nil receiver (the code checks its argument for nil instead of the
receiver), so it panics rather than returning the defensive error, which
it returns only for nil input. -/
theorem unmarshalJSON_nil_receiver_panics :
    SecretMessage.unmarshalJSON none (some (strBytes "\x7b\"x\":1\x7d")) =
      UnmarshalOutcome.nilPanic ∧
    SecretMessage.unmarshalJSON none none =
      UnmarshalOutcome.err "SecretMessage: UnmarshalJSON on nil pointer" ∧
    (∀ (s₀ : SecretMessage) (bs : Bytes),
      SecretMessage.unmarshalJSON (some s₀) (some bs) = UnmarshalOutcome.ok bs) ∧
    (∀ (r : Repo) (bs : Bytes),
      Repo.vcsConfig { r with vcsConfigMessage := some bs } = some bs) ∧
    (∀ r : Repo, Repo.vcsConfig { r with vcsConfigMessage := none } = none) :=
  ⟨rfl, rfl, fun _ _ => rfl, fun _ _ => rfl, fun _ => rfl⟩

/-- C10: initRepo is idempotent, and it changes no field other than the
poll interval, the vcs kind and the URL-pattern: the URL, the
exclude-dot-files flag, both tri-state update flags and the secret
payload are left unchanged. -/
theorem initRepo_idempotent_and_frame (r : Repo) :
    initRepo (initRepo r) = initRepo r ∧
    (initRepo r).url = r.url ∧
    (initRepo r).excludeDotFiles = r.excludeDotFiles ∧
    (initRepo r).enablePollUpdates = r.enablePollUpdates ∧
    (initRepo r).enablePushUpdates = r.enablePushUpdates ∧
    (initRepo r).vcsConfigMessage = r.vcsConfigMessage := by
  rcases r with ⟨url, ms, vcs, msg, pat, ex, pl, ps⟩
  refine ⟨?_, by rw [initRepo_eq], by rw [initRepo_eq], by rw [initRepo_eq],
    by rw [initRepo_eq], by rw [initRepo_eq]⟩
  rw [initRepo_eq, initRepo_eq]
  have hd1 : defaultMsBetweenPoll ≠ 0 := by decide
  have hd2 : defaultVcs ≠ "" := by decide
  have hd3 : defaultBaseURL ≠ "" := by decide
  have hd4 : defaultAnchor ≠ "" := by decide
  have hd5 : defaultBaseURLAzureDevops ≠ "" := by decide
  have hd6 : defaultAnchorAzureDevops ≠ "" := by decide
  rcases pat with _ | ⟨pb, pa⟩
  · cases hg : goContains url "visualstudio.com" <;>
      by_cases h1 : ms = 0 <;> by_cases h2 : vcs = "" <;>
        simp [h1, h2, hg, hd1, hd2, hd3, hd4, hd5, hd6]
  · by_cases h1 : ms = 0 <;> by_cases h2 : vcs = "" <;>
      by_cases h3 : pb = "" <;> by_cases h4 : pa = "" <;>
        simp [h1, h2, h3, h4, hd1, hd2, hd3, hd4]

/-- Closed form of initConfig. -/
theorem initConfig_eq (c : Config) :
    initConfig c = { c with
      maxConcurrentIndexers :=
        if c.maxConcurrentIndexers = 0 then defaultMaxConcurrentIndexers
        else c.maxConcurrentIndexers,
      healthCheckURI :=
        if c.healthCheckURI = "" then defaultHealthCheckURI
        else c.healthCheckURI } := by
  rcases c with ⟨db, ti, rs, mx, hc⟩
  unfold initConfig
  by_cases h1 : mx = 0 <;> by_cases h2 : hc = "" <;> simp [h1, h2]

/-- Closed form of the post-decode pipeline of LoadFromFile: every field
of the loaded Config in terms of the decoded one. -/
theorem loadFromFile_eq (cwd filename : String) (c : Config) :
    Config.loadFromFile cwd filename c = {
      dbPath := if isAbs c.dbPath then c.dbPath
        else absPath cwd (joinPath (dirOf filename) c.dbPath),
      title := if c.title = "" then defaultTitle else c.title,
      repos := c.repos.map (fun kr => (kr.fst, initRepo kr.snd)),
      maxConcurrentIndexers :=
        if c.maxConcurrentIndexers = 0 then defaultMaxConcurrentIndexers
        else c.maxConcurrentIndexers,
      healthCheckURI :=
        if c.healthCheckURI = "" then defaultHealthCheckURI
        else c.healthCheckURI } := by
  rcases c with ⟨db, ti, rs, mx, hc⟩
  unfold Config.loadFromFile
  rw [initConfig_eq]
  by_cases h1 : ti = "" <;> by_cases h2 : isAbs db <;> simp [h1, h2]

/-- C7: after loading, a dbpath that was not absolute equals the
canonical absolute form of the config file's directory joined with the
given dbpath, and an absolute dbpath is preserved unchanged; in
particular a config file at /a/b/config.json with dbpath "data" yields
/a/b/data, and dbpath "/abs/data" stays "/abs/data". -/
theorem loadFromFile_dbPath_resolution (cwd filename : String) (c : Config) :
    ((Config.loadFromFile cwd filename c).dbPath =
      if isAbs c.dbPath then c.dbPath
      else absPath cwd (joinPath (dirOf filename) c.dbPath)) ∧
    (Config.loadFromFile cwd "/a/b/config.json" { c with dbPath := "data" }).dbPath =
      "/a/b/data" ∧
    (Config.loadFromFile cwd filename { c with dbPath := "/abs/data" }).dbPath =
      "/abs/data" := by
  have e1 : joinPath (dirOf "/a/b/config.json") "data" = "/a/b/data" := by decide
  refine ⟨by rw [loadFromFile_eq], ?_, ?_⟩
  · rw [loadFromFile_eq]
    simp only [e1, absPath]
    simp [show isAbs "data" = false from by decide,
      show isAbs "/a/b/data" = true from by decide,
      show clean "/a/b/data" = "/a/b/data" from by decide]
  · rw [loadFromFile_eq]
    simp [show isAbs "/abs/data" = true from by decide]

/-- C9: after loading, the title equals the fixed default when the
decoded title was empty, max-concurrent-indexers equals 2 when the
decoded value was zero, the health-check URI equals the fixed default
path when the decoded one was empty, and each supplied non-empty or
non-zero value is preserved unchanged. -/
theorem loadFromFile_config_defaults (cwd filename : String) (c : Config) :
    (Config.loadFromFile cwd filename c).title =
      (if c.title = "" then "Hound" else c.title) ∧
    (Config.loadFromFile cwd filename c).maxConcurrentIndexers =
      (if c.maxConcurrentIndexers = 0 then 2 else c.maxConcurrentIndexers) ∧
    (Config.loadFromFile cwd filename c).healthCheckURI =
      (if c.healthCheckURI = "" then "/healthz" else c.healthCheckURI) := by
  rw [loadFromFile_eq]
  exact ⟨rfl, rfl, rfl⟩

/-- Rendering a Repo ignores its secret payload bytes. -/
theorem marshal_scrubRepo (r : Repo) : Repo.marshal (scrubRepo r) = Repo.marshal r := by
  rcases r with ⟨url, ms, vcs, msg, pat, ex, pl, ps⟩
  cases msg <;>
    simp [scrubRepo, Repo.marshal, marshalSecretField, SecretMessage.marshalJSON]

/-- Rendering the repository map ignores every secret payload. -/
theorem marshalRepos_scrub (rs : List (String × Repo)) :
    marshalRepos (rs.map (fun kr => (kr.fst, scrubRepo kr.snd))) = marshalRepos rs := by
  unfold marshalRepos
  rw [List.map_map]
  have h2 : ∀ kr ∈ rs,
      ((fun kr : String × Repo => jsonString kr.1 ++ strBytes ":" ++ Repo.marshal kr.2) ∘
        (fun kr : String × Repo => (kr.1, scrubRepo kr.2))) kr =
      jsonString kr.1 ++ strBytes ":" ++ Repo.marshal kr.2 :=
    fun kr _ => by simp [Function.comp, marshal_scrubRepo]
  rw [List.map_congr_left h2]

/-- C2 (amended): ToJSONString renders exactly the repository map — the
other Config fields do not influence the output — with every present
vcs-config rendered as the empty object, and the output is independent
of the secret payload bytes: two Configs whose scrubbed forms agree
(i.e. that differ only in secret payloads) produce identical output.
(The literal never-a-substring phrasing fails for degenerate payloads
that coincide with part of the fixed output skeleton, see the
counterexample.) -/
theorem toJSONString_projection_and_secret_independence :
    (∀ c : Config, Config.toJSONString c = String.mk (marshalRepos c.repos)) ∧
    (∀ (c : Config) (d t : String) (m : Int) (h : String),
      Config.toJSONString
        { c with dbPath := d, title := t, maxConcurrentIndexers := m,
                 healthCheckURI := h } = Config.toJSONString c) ∧
    (∀ c₁ c₂ : Config, scrubConfig c₁ = scrubConfig c₂ →
      Config.toJSONString c₁ = Config.toJSONString c₂) ∧
    (∀ (r : Repo) (p : SecretMessage),
      strBytes ",\"vcs-config\":" ++ strBytes "\x7b\x7d" <:+:
        Repo.marshal { r with vcsConfigMessage := some p }) := by
  have k : ∀ c : Config, Config.toJSONString (scrubConfig c) = Config.toJSONString c :=
    fun c => congrArg String.mk (marshalRepos_scrub c.repos)
  refine ⟨fun c => rfl, fun c d t m h => rfl, ?_, ?_⟩
  · intro c₁ c₂ h
    calc Config.toJSONString c₁ = Config.toJSONString (scrubConfig c₁) := (k c₁).symm
      _ = Config.toJSONString (scrubConfig c₂) := by rw [h]
      _ = Config.toJSONString c₂ := k c₂
  · intro r p
    refine ⟨strBytes "\x7b\"url\":" ++ jsonString r.url ++
      strBytes ",\"ms-between-poll\":" ++ marshalInt r.msBetweenPolls ++
      strBytes ",\"vcs\":" ++ jsonString r.vcs,
      strBytes ",\"url-pattern\":" ++ URLPattern.marshal r.urlPattern ++
      strBytes ",\"exclude-dot-files\":" ++ marshalBool r.excludeDotFiles ++
      strBytes ",\"enable-poll-updates\":" ++ marshalOptBool r.enablePollUpdates ++
      strBytes ",\"enable-push-updates\":" ++ marshalOptBool r.enablePushUpdates ++
      strBytes "\x7d", ?_⟩
    simp [Repo.marshal, marshalSecretField, SecretMessage.marshalJSON]

/-- Repository whose secret payload happens to be the two bytes of the
empty JSON object. -/
def bracesPayloadRepo : Repo :=
  { url := "https://example.com/r", msBetweenPolls := 30000, vcs := "git",
    vcsConfigMessage := some (strBytes "\x7b\x7d"), urlPattern := none,
    excludeDotFiles := false, enablePollUpdates := none, enablePushUpdates := none }

/-- Config holding that repository. -/
def bracesPayloadConfig : Config :=
  { dbPath := "/db", title := "Hound", repos := [("r", bracesPayloadRepo)],
    maxConcurrentIndexers := 2, healthCheckURI := "/healthz" }

set_option maxRecDepth 8192 in
/-- C2 counterexample: a Config holding a repository with the non-empty
secret payload consisting of the two bytes of the empty JSON object —
the ToJSONString output does contain that payload as a substring, so the
literal never-contains form of the claim is false. -/
theorem toJSONString_contains_a_secret_payload :
    bracesPayloadRepo.vcsConfigMessage = some (strBytes "\x7b\x7d") ∧
    strBytes "\x7b\x7d" ≠ [] ∧
    strBytes "\x7b\x7d" <:+: (Config.toJSONString bracesPayloadConfig).data := by
  exact ⟨rfl, by decide, by decide⟩

/-- Same Config with secret payload abc. -/
def secretConfigA : Config :=
  { dbPath := "/db", title := "Hound",
    repos := [("r", { bracesPayloadRepo with
      vcsConfigMessage := some (strBytes "\x7b\"token\":\"abc\"\x7d") })],
    maxConcurrentIndexers := 2, healthCheckURI := "/healthz" }

/-- Same Config with secret payload xyz. -/
def secretConfigB : Config :=
  { dbPath := "/db", title := "Hound",
    repos := [("r", { bracesPayloadRepo with
      vcsConfigMessage := some (strBytes "\x7b\"token\":\"xyz\"\x7d") })],
    maxConcurrentIndexers := 2, healthCheckURI := "/healthz" }

set_option maxRecDepth 8192 in
/-- C2 witness: two concrete Configs differing only in their secret
payload bytes produce identical ToJSONString output. -/
theorem toJSONString_projection_and_secret_independence_witness :
    Config.toJSONString secretConfigA = Config.toJSONString secretConfigB :=
  toJSONString_projection_and_secret_independence.2.2.1 secretConfigA secretConfigB
    (by decide)

end Hound
